import Mathlib

/-
Verification development for the ThreadMiner thread-normalization pipeline
(src: "Reddit Fetch & Normalize Logic" and its type definitions).

The raw Reddit listing tree and the normalizer (normalizePost,
normalizeComment, flattenComments, countNestedComments, normalizeThread)
and the CSV formatter (toCSV) are embedded as executable Lean functions,
translated branch-by-branch from the TypeScript source.

Modelling conventions:
  - JS strings that the source tests for truthiness (body, author,
    body_html) are modelled as String, with the empty string "" standing
    for both the absent field and the empty string (JS `x || d` treats
    both identically).
  - JS numbers holding scores / epochs are Int; counts and depths are Nat.
    The post field upvote_ratio (a JSON number only copied verbatim, never
    computed with) is modelled as Rat and named upvoteRate here because
    the original field name is not usable in this development.
  - `new Date(e * 1000).toISOString()` is modelled by isoOfEpoch, a real
    proleptic-Gregorian UTC conversion (milliseconds are always "000"
    since epochs are whole seconds here; the JS expanded-year format for
    years outside 0..9999 is not modelled, no claim touches it).
  - `new Date().toISOString()` inside normalizeThread reads the ambient
    clock; the clock is made explicit as a `now : String` parameter.
  - The `data?.children` array of a raw listing is an `Option`: `none` models the
    `data` object or its `children` array being absent at runtime (the
    source guards this with optional chaining in flattenComments, and
    crashes with a TypeError at the unguarded normalizeThread access
    `postListing.data.children[0]`, modelled by `.typeError`).
  - The comment field `replies` (empty-string sentinel or a nested
    listing) together with the optional children of that listing is fused into the three
    comment constructors of RawChildren below, so the whole raw tree is
    one plain inductive type.
-/

namespace ThreadMiner

/-- DepthLevel from the type definitions: `top`, `level2`, `full`. -/
inductive DepthLevel where
  | top
  | level2
  | full
deriving DecidableEq, Repr

/-- RedditRawMore: fields the normalizer reads (`count`, `children`).
`count` is 0 when the JSON field is absent or zero (both are falsy in JS);
`children` is the list of elided comment ids. -/
structure RawMore where
  count : Nat
  children : List String
deriving DecidableEq, Repr

/-- JS `edited` field of a raw comment: a Bool or a number. -/
inductive EditedField where
  | bool (b : Bool)
  | num (n : Int)
deriving DecidableEq, Repr

/-- RedditRawComment minus its recursive `replies` field (the replies are
carried by the tree constructors of RawChildren). -/
structure RawCommentData where
  id : String
  body : String
  body_html : String
  author : String
  score : Int
  created_utc : Int
  edited : EditedField
  parent_id : String
  link_id : String
  permalink : String
  depth : Nat
  is_submitter : Bool
  distinguished : Option String
  stickied : Bool
  score_hidden : Bool
  controversiality : Nat
  total_awards_received : Nat
deriving DecidableEq, Repr

/-- RedditRawPost: fields read by normalizePost. `selftext_html`,
`link_flair_text` and `author_flair_text` are nullable in the source. -/
structure RawPost where
  id : String
  title : String
  selftext : String
  selftext_html : Option String
  author : String
  subreddit : String
  score : Int
  upvoteRate : Rat
  num_comments : Nat
  created_utc : Int
  permalink : String
  url : String
  is_self : Bool
  over_18 : Bool
  spoiler : Bool
  locked : Bool
  archived : Bool
  link_flair_text : Option String
  author_flair_text : Option String
deriving DecidableEq, Repr

/-- Ordered `children` array of one raw listing, with the kind tag of each
child (`t3`, `t1`, `more`) fused into the list spine.  A `t1` child carries
its `replies` field (empty-string sentinel or a nested listing), which
yields three comment constructors:
  - commentNR: replies is the empty-string sentinel (or absent) — no
    listing object;
  - commentRA: replies is a listing object whose `data?.children` is absent;
  - commentR: replies is a listing object with a present children array. -/
inductive RawChildren where
  | nil
  | post (p : RawPost) (rest : RawChildren)
  | more (m : RawMore) (rest : RawChildren)
  | commentNR (c : RawCommentData) (rest : RawChildren)
  | commentRA (c : RawCommentData) (rest : RawChildren)
  | commentR (c : RawCommentData) (replies : RawChildren) (rest : RawChildren)
deriving DecidableEq, Repr

/-- RedditRawResponse as consumed by the normalizer: its `data?.children`
array, `none` when `data` or `children` is absent at runtime. -/
abbrev RawResponse := Option RawChildren

-- ============================================
-- Epoch-seconds to ISO-8601 UTC string (model of Date.toISOString)
-- ============================================

/-- Two-digit zero padding. -/
def pad2 (n : Nat) : String :=
  if n < 10 then "0" ++ toString n else toString n

/-- Four-digit zero padding for years 0..9999 (the only range the claims
exercise); other years print unpadded. -/
def padYear (y : Int) : String :=
  if 0 ≤ y ∧ y < 10000 then
    let n := y.toNat
    if n < 10 then "000" ++ toString n
    else if n < 100 then "00" ++ toString n
    else if n < 1000 then "0" ++ toString n
    else toString n
  else toString y

/-- Civil date (year, month, day) from days since the Unix epoch
(standard era-based proleptic-Gregorian algorithm). -/
def civilFromDays (z0 : Int) : Int × Nat × Nat :=
  let z := z0 + 719468
  let era : Int := z / 146097 - (if z % 146097 < 0 then 1 else 0)
  let doe : Nat := (z - era * 146097).toNat
  let yoe : Nat := (doe - doe / 1460 + doe / 36524 - doe / 146096) / 365
  let y : Int := era * 400 + yoe
  let doy : Nat := doe - (365 * yoe + yoe / 4 - yoe / 100)
  let mp : Nat := (5 * doy + 2) / 153
  let d : Nat := doy - (153 * mp + 2) / 5 + 1
  let m : Nat := if mp < 10 then mp + 3 else mp - 9
  (if m ≤ 2 then y + 1 else y, m, d)

/-- ISO-8601 UTC timestamp for an epoch expressed in whole seconds, i.e.
the model of `new Date(e * 1000).toISOString()`. -/
def isoOfEpoch (e : Int) : String :=
  let days : Int := e / 86400 - (if e % 86400 < 0 then 1 else 0)
  let secs : Nat := (e - days * 86400).toNat
  let ymd := civilFromDays days
  padYear ymd.1 ++ "-" ++ pad2 ymd.2.1 ++ "-" ++ pad2 ymd.2.2 ++ "T" ++
    pad2 (secs / 3600) ++ ":" ++ pad2 (secs % 3600 / 60) ++ ":" ++
    pad2 (secs % 60) ++ ".000Z"

-- ============================================
-- Normalized types (the clean schema)
-- ============================================

/-- NormalizedThread from the type definitions (the upvote_ratio field
of the source appears as
upvoteRate, see the header comment). -/
structure NormalizedThread where
  id : String
  title : String
  body : String
  bodyHtml : Option String
  author : String
  subreddit : String
  score : Int
  upvoteRate : Rat
  commentCount : Nat
  createdAt : String
  createdUtc : Int
  permalink : String
  url : String
  isSelf : Bool
  isNsfw : Bool
  isSpoiler : Bool
  isLocked : Bool
  isArchived : Bool
  flair : Option String
  authorFlair : Option String
deriving DecidableEq, Repr

/-- NormalizedComment from the type definitions. -/
structure NormalizedComment where
  id : String
  body : String
  bodyHtml : String
  author : String
  score : Int
  createdAt : String
  createdUtc : Int
  edited : Bool
  editedAt : Option String
  parentId : String
  threadId : String
  permalink : String
  depth : Nat
  isOP : Bool
  isDistinguished : Bool
  isStickied : Bool
  isScoreHidden : Bool
  controversiality : Nat
  awards : Nat
deriving DecidableEq, Repr

/-- The `meta` block of NormalizedData. -/
structure NormalizedMeta where
  fetchedAt : String
  totalComments : Nat
  maxDepth : Nat
  depthFilter : DepthLevel
  truncated : Bool
  moreCommentsAvailable : Nat
deriving DecidableEq, Repr

/-- NormalizedData: thread + flat comment list + meta block. -/
structure NormalizedData where
  thread : NormalizedThread
  comments : List NormalizedComment
  meta : NormalizedMeta
deriving DecidableEq, Repr

/-- Errors the normalizer can raise: the explicit
RedditAPIError of kind parse thrown for a bad post child, and the
runtime TypeError from the unguarded `postListing.data.children[0]`
access when the children array is absent. -/
inductive NormalizeError where
  | parseError (msg : String)
  | typeError
deriving DecidableEq, Repr

-- ============================================
-- normalizePost / normalizeComment (pure field mappings)
-- ============================================

/-- normalizePost from the source: pure field mapping.  The JS
or-defaulting of raw.selftext (to the empty string) and of
raw.selftext_html (to null) is mapped through the String and
Option String models. -/
def normalizePost (raw : RawPost) : NormalizedThread :=
  { id := raw.id
    title := raw.title
    body := raw.selftext
    bodyHtml := match raw.selftext_html with
      | some s => if s = "" then none else some s
      | none => none
    author := raw.author
    subreddit := raw.subreddit
    score := raw.score
    upvoteRate := raw.upvoteRate
    commentCount := raw.num_comments
    createdAt := isoOfEpoch raw.created_utc
    createdUtc := raw.created_utc
    permalink := "https://reddit.com" ++ raw.permalink
    url := raw.url
    isSelf := raw.is_self
    isNsfw := raw.over_18
    isSpoiler := raw.spoiler
    isLocked := raw.locked
    isArchived := raw.archived
    flair := raw.link_flair_text
    authorFlair := raw.author_flair_text }

/-- normalizeComment from the source: body and author fall back to the
literal "[deleted]" when absent, body_html falls back to the empty
string, edited is the JS truthiness of the raw edited field, editedAt is
set when that field is numeric, isDistinguished is the JS truthiness of
distinguished, and awards fall back to 0. -/
def normalizeComment (raw : RawCommentData) (threadId : String) :
    NormalizedComment :=
  { id := raw.id
    body := if raw.body = "" then "[deleted]" else raw.body
    bodyHtml := raw.body_html
    author := if raw.author = "" then "[deleted]" else raw.author
    score := raw.score
    createdAt := isoOfEpoch raw.created_utc
    createdUtc := raw.created_utc
    edited := match raw.edited with
      | .bool b => b
      | .num n => n != 0
    editedAt := match raw.edited with
      | .num n => some (isoOfEpoch n)
      | .bool _ => none
    parentId := raw.parent_id
    threadId := threadId
    permalink := "https://reddit.com" ++ raw.permalink
    depth := raw.depth
    isOP := raw.is_submitter
    isDistinguished := match raw.distinguished with
      | none => false
      | some s => s != ""
    isStickied := raw.stickied
    isScoreHidden := raw.score_hidden
    controversiality := raw.controversiality
    awards := raw.total_awards_received }

-- ============================================
-- flattenComments / countNestedComments / normalizeThread
-- ============================================

/-- The numeric depth cutoff computed at the top of flattenComments:
depthFilter top gives 0, level2 gives 1, full gives Infinity, with
`none` standing for Infinity. -/
def depthCutoff : DepthLevel → Option Nat
  | .top => some 0
  | .level2 => some 1
  | .full => none

/-- The source comparison `commentData.depth > maxDepth`; always false
against the Infinity (= `none`) cutoff. -/
def depthExceeds (d : Nat) : Option Nat → Bool
  | none => false
  | some m => d > m

/-- The More-node contribution in flattenComments:
`more.count || more.children?.length || 0`. -/
def moreContribution (m : RawMore) : Nat :=
  if m.count ≠ 0 then m.count else m.children.length

/-- countNestedComments from the source: 1 per t1 child plus its
recursively counted replies (when the replies field holds a listing;
for a listing whose children array is absent the loop runs over
`listing.data?.children || []`, contributing 0), plus
`count || 0` per More child. -/
def countNestedComments : RawChildren → Nat
  | .nil => 0
  | .post _ rest => countNestedComments rest
  | .more m rest => m.count + countNestedComments rest
  | .commentNR _ rest => 1 + countNestedComments rest
  | .commentRA _ rest => 1 + countNestedComments rest
  | .commentR _ replies rest =>
      1 + countNestedComments replies + countNestedComments rest

/-- The `processChildren` walk of flattenComments, with the mutable
`comments` / `moreCount` accumulators made explicit in the return
pair.  Branches, in source order, per t1 child:
  1. depth beyond the cutoff: skip, and when the replies field holds a
     listing add countNestedComments of it;
  2. author not the deleted literal and score below minScore: skip
     entirely;
  3. otherwise push the normalized comment, then recursively flatten the
     replies listing (when present), concatenating its comments and
     summing its moreCount.
More children add `count || children?.length || 0`; any other kind is
ignored. -/
def flattenChildren (threadId : String) (cutoff : Option Nat)
    (minScore : Int) : RawChildren → List NormalizedComment × Nat
  | .nil => ([], 0)
  | .post _ rest => flattenChildren threadId cutoff minScore rest
  | .more m rest =>
      let r := flattenChildren threadId cutoff minScore rest
      (r.1, moreContribution m + r.2)
  | .commentNR c rest =>
      if depthExceeds c.depth cutoff then
        flattenChildren threadId cutoff minScore rest
      else if c.author ≠ "[deleted]" ∧ c.score < minScore then
        flattenChildren threadId cutoff minScore rest
      else
        let r := flattenChildren threadId cutoff minScore rest
        (normalizeComment c threadId :: r.1, r.2)
  | .commentRA c rest =>
      if depthExceeds c.depth cutoff then
        let r := flattenChildren threadId cutoff minScore rest
        (r.1, 0 + r.2)
      else if c.author ≠ "[deleted]" ∧ c.score < minScore then
        flattenChildren threadId cutoff minScore rest
      else
        let r := flattenChildren threadId cutoff minScore rest
        (normalizeComment c threadId :: r.1, 0 + r.2)
  | .commentR c replies rest =>
      if depthExceeds c.depth cutoff then
        let r := flattenChildren threadId cutoff minScore rest
        (r.1, countNestedComments replies + r.2)
      else if c.author ≠ "[deleted]" ∧ c.score < minScore then
        flattenChildren threadId cutoff minScore rest
      else
        let nested := flattenChildren threadId cutoff minScore replies
        let r := flattenChildren threadId cutoff minScore rest
        (normalizeComment c threadId :: (nested.1 ++ r.1),
          nested.2 + r.2)

/-- flattenComments from the source: computes the cutoff from the depth
filter and walks `listing.data?.children` when present, returning
([], 0) otherwise. -/
def flattenComments (listing : RawResponse) (threadId : String)
    (depthFilter : DepthLevel) (minScore : Int) :
    List NormalizedComment × Nat :=
  match listing with
  | none => ([], 0)
  | some cs => flattenChildren threadId (depthCutoff depthFilter) minScore cs

/-- Options record of normalizeThread: depth, optional maxComments,
optional minScore (`minScore` absent means the flattenComments default
parameter value 0 applies). -/
structure NormalizeOptions where
  depth : DepthLevel
  maxComments : Option Nat := none
  minScore : Option Int := none
deriving DecidableEq, Repr

/-- normalizeThread from the source.  `now` is the ambient clock value
that `new Date().toISOString()` would read for `meta.fetchedAt`.
Branches:
  - `postListing.data.children[0]` with the children array absent is a
    runtime TypeError (`.typeError`);
  - first child absent or not of kind t3 raises the
    could-not-find-post-content parse error;
  - otherwise flatten the comment listing (minScore defaulting to 0),
    apply the `options.maxComments && comments.length > options.maxComments`
    truncation, fold the retained depths for meta.maxDepth, and assemble
    NormalizedData, adding the number of truncated-away entries to
    moreCommentsAvailable. -/
def normalizeThread (postListing commentsListing : RawResponse)
    (options : NormalizeOptions) (now : String) :
    Except NormalizeError NormalizedData :=
  match postListing with
  | none => .error .typeError
  | some pcs =>
    match pcs with
    | .post p _ =>
      let thread := normalizePost p
      let flat := flattenComments commentsListing thread.id options.depth
        (options.minScore.getD 0)
      let comments := flat.1
      let moreCount := flat.2
      let truncated : Bool := match options.maxComments with
        | some n => n != 0 && comments.length > n
        | none => false
      let finalComments := if truncated then
          comments.take (options.maxComments.getD 0)
        else comments
      let maxDepth := finalComments.foldl (fun mx c => max mx c.depth) 0
      .ok
        { thread := thread
          comments := finalComments
          meta :=
            { fetchedAt := now
              totalComments := finalComments.length
              maxDepth := maxDepth
              depthFilter := options.depth
              truncated := truncated
              moreCommentsAvailable := moreCount +
                (if truncated then comments.length - finalComments.length
                 else 0) } }
    | _ => .error (.parseError
        "Invalid thread data: could not find post content.")

-- ============================================
-- CSV formatter
-- ============================================

/-- JS `str.includes(c)` for a single character, at the character level
so that it computes inside the kernel. -/
def containsChar (s : String) (c : Char) : Bool :=
  s.data.contains c

/-- JS `str.replace(/c/g, r)` for a single-character pattern: every
occurrence of the character is replaced by the string r. -/
def replaceChar (s : String) (c : Char) (r : String) : String :=
  String.mk (s.data.flatMap (fun ch => if ch = c then r.data else [ch]))

/-- escapeCSV from the source toCSV: wrap in double quotes and double the
embedded quotes (a global single-character regex replace) when the field
holds a comma, quote, or newline. -/
def escapeCSV (s : String) : String :=
  if containsChar s ',' || containsChar s '"' || containsChar s '\n' then
    "\"" ++ replaceChar s '"' "\"\"" ++ "\""
  else s

/-- The fixed CSV header row of toCSV. -/
def csvHeader : String :=
  "id,author,body,score,depth,parent_id,created_at,is_op,awards,permalink"

/-- One toCSV data row: only the body field is escaped (after collapsing
its newlines to spaces); every other field is emitted verbatim. -/
def csvRow (c : NormalizedComment) : String :=
  String.intercalate ","
    [c.id, c.author, escapeCSV (replaceChar c.body '\n' " "),
      toString c.score, toString c.depth, c.parentId, c.createdAt,
      (if c.isOP then "true" else "false"), toString c.awards, c.permalink]

/-- toCSV from the source: header row, then one row per retained comment,
joined with newlines. -/
def toCSV (data : NormalizedData) : String :=
  String.intercalate "\n" (csvHeader :: data.comments.map csvRow)

-- ============================================
-- Spec-side comparison definitions
-- ============================================

/-- Follows the words of the spec for the count-conservation property:
the total number of Comment + More-declared nodes reachable in the raw
tree, i.e. one per Comment node plus the declared count of each More
node. -/
def totalReachable : RawChildren → Nat
  | .nil => 0
  | .post _ rest => totalReachable rest
  | .more m rest => m.count + totalReachable rest
  | .commentNR _ rest => 1 + totalReachable rest
  | .commentRA _ rest => 1 + totalReachable rest
  | .commentR _ replies rest =>
      1 + totalReachable replies + totalReachable rest

/-- totalReachable lifted to a whole listing payload. -/
def totalListing : RawResponse → Nat
  | none => 0
  | some cs => totalReachable cs

/-- Follows the words of the spec for the CSV renderer: the same fixed column
order as toCSV, body newlines collapsed to spaces, but with the standard
CSV quoting applied to every field. -/
def csvRowQuoted (c : NormalizedComment) : String :=
  String.intercalate ","
    [escapeCSV c.id, escapeCSV c.author,
      escapeCSV (replaceChar c.body '\n' " "),
      escapeCSV (toString c.score), escapeCSV (toString c.depth),
      escapeCSV c.parentId, escapeCSV c.createdAt,
      escapeCSV (if c.isOP then "true" else "false"),
      escapeCSV (toString c.awards), escapeCSV c.permalink]

/-- The whole-document CSV render under the every-field quoting of the
spec. -/
def toCSVQuoted (data : NormalizedData) : String :=
  String.intercalate "\n" (csvHeader :: data.comments.map csvRowQuoted)

-- ============================================
-- Helper predicates and projections used by the theorems
-- ============================================

/-- A comment node that the score filter can never drop at the default
minScore of 0: non-negative score or the deleted author. -/
def scoreOK (c : RawCommentData) : Bool :=
  (0 ≤ c.score) || (c.author == "[deleted]")

/-- A More node whose flattenComments contribution equals its declared
count: nonzero count, or an empty elided-ids list. -/
def moreOK (m : RawMore) : Bool :=
  (m.count != 0) || m.children.isEmpty

/-- Every reachable comment passes scoreOK and every reachable More node
passes moreOK. -/
def goodChildren : RawChildren → Bool
  | .nil => true
  | .post _ rest => goodChildren rest
  | .more m rest => moreOK m && goodChildren rest
  | .commentNR c rest => scoreOK c && goodChildren rest
  | .commentRA c rest => scoreOK c && goodChildren rest
  | .commentR c replies rest =>
      scoreOK c && goodChildren replies && goodChildren rest

/-- goodChildren lifted to a whole listing payload. -/
def goodListing : RawResponse → Bool
  | none => true
  | some cs => goodChildren cs

/-- Whether the first child of a post listing exists and has kind t3. -/
def isPostHead : RawChildren → Bool
  | .post _ _ => true
  | _ => false

/-- The retained comment ids of a normalize result ([] on error). -/
def idsOf : Except NormalizeError NormalizedData → List String
  | .ok d => d.comments.map (fun c => c.id)
  | .error _ => []

/-- Blank out meta.fetchedAt, the one clock-dependent field. -/
def eraseFetchedAt :
    Except NormalizeError NormalizedData →
    Except NormalizeError NormalizedData
  | .error e => .error e
  | .ok d => .ok { d with meta := { d.meta with fetchedAt := "" } }

-- ============================================
-- Concrete fixtures for witnesses and counterexamples
-- ============================================

/-- A concrete raw post (id abc123, the example post of the spec). -/
def exPost : RawPost :=
  { id := "abc123", title := "T", selftext := "", selftext_html := none,
    author := "op", subreddit := "sub", score := 100, upvoteRate := 1,
    num_comments := 7, created_utc := 0, permalink := "/r/sub/abc123/",
    url := "https://x", is_self := true, over_18 := false,
    spoiler := false, locked := false, archived := false,
    link_flair_text := none, author_flair_text := none }

/-- A concrete raw comment all other fixture comments are updates of. -/
def baseComment : RawCommentData :=
  { id := "c0", body := "hello", body_html := "", author := "alice",
    score := 1, created_utc := 0, edited := .bool false,
    parent_id := "t3_abc123", link_id := "t3_abc123",
    permalink := "/p/c0", depth := 0, is_submitter := false,
    distinguished := none, stickied := false, score_hidden := false,
    controversiality := 0, total_awards_received := 0 }

/-- The end-to-end example comment listing of the spec: one depth-0 comment c1
(score 10, author alice) whose replies hold one depth-1 comment c2
(score 1, author bob) and one More node with count 5. -/
def exListing : RawChildren :=
  .commentR { baseComment with id := "c1", score := 10, permalink := "/p/c1" }
    (.commentNR
      { baseComment with
        id := "c2", author := "bob", score := 1, depth := 1,
        parent_id := "t1_c1", permalink := "/p/c2" }
      (.more { count := 5, children := ["m1", "m2"] } .nil))
    .nil

/-- Two top-level comments a and b, where a has one depth-1 reply r. -/
def exListing8 : RawChildren :=
  .commentR { baseComment with id := "a", permalink := "/p/a" }
    (.commentNR
      { baseComment with
        id := "r", author := "rob", depth := 1,
        parent_id := "t1_a", permalink := "/p/r" } .nil)
    (.commentNR
      { baseComment with
        id := "b", author := "bill", permalink := "/p/b" } .nil)

/-- A single top-level comment with a real author and score -1. -/
def negListing : RawChildren :=
  .commentNR { baseComment with id := "n1", score := -1 } .nil

/-- A single top-level comment with absent author and a positive score. -/
def c10Comment : RawCommentData :=
  { baseComment with id := "d1", author := "", score := 5 }

/-- The value normalizeThread returns for the exListing8 thread at full
depth with no cap and no score filter (fetched at clock value NOW). -/
def exData8 : NormalizedData :=
  { thread := normalizePost exPost
    comments :=
      [normalizeComment { baseComment with id := "a", permalink := "/p/a" }
          "abc123",
        normalizeComment
          { baseComment with
            id := "r", author := "rob", depth := 1,
            parent_id := "t1_a", permalink := "/p/r" } "abc123",
        normalizeComment
          { baseComment with
            id := "b", author := "bill", permalink := "/p/b" } "abc123"]
    meta :=
      { fetchedAt := "NOW", totalComments := 3, maxDepth := 1,
        depthFilter := .full, truncated := false,
        moreCommentsAvailable := 0 } }

/-- The value normalizeThread returns for the single-comment c10Comment
thread at full depth with no cap and no score filter. -/
def exData10 : NormalizedData :=
  { thread := normalizePost exPost
    comments := [normalizeComment c10Comment "abc123"]
    meta :=
      { fetchedAt := "NOW", totalComments := 1, maxDepth := 0,
        depthFilter := .full, truncated := false,
        moreCommentsAvailable := 0 } }

/-- A normalized data value with an author field containing a comma. -/
def dirtyData : NormalizedData :=
  { thread := normalizePost exPost
    comments :=
      [normalizeComment { baseComment with author := "a,b" } "abc123"]
    meta :=
      { fetchedAt := "NOW", totalComments := 1, maxDepth := 0,
        depthFilter := .full, truncated := false,
        moreCommentsAvailable := 0 } }

/-- A normalized data value whose non-body fields need no CSV quoting. -/
def cleanData : NormalizedData :=
  { thread := normalizePost exPost
    comments :=
      [normalizeComment { baseComment with body := "x,\"y\"\nz" } "abc123"]
    meta :=
      { fetchedAt := "NOW", totalComments := 1, maxDepth := 0,
        depthFilter := .full, truncated := false,
        moreCommentsAvailable := 0 } }

-- ============================================
-- Claim theorems
-- ============================================

/-- Claim C6 (corrected): in normalizeComment the "[deleted]" substitution
for the body is keyed on the raw body being absent (or already the literal
"[deleted]"), not on the author; the author falls back to "[deleted]"
exactly when the raw author is absent (or already that literal). -/
theorem C6_amended (raw : RawCommentData) (tid : String) :
    ((normalizeComment raw tid).body = "[deleted]" ↔
      raw.body = "" ∨ raw.body = "[deleted]")
    ∧ ((normalizeComment raw tid).author = "[deleted]" ↔
      raw.author = "" ∨ raw.author = "[deleted]") := by
  constructor
  · simp only [normalizeComment]
    split
    · simp_all
    · simp_all
  · simp only [normalizeComment]
    split
    · simp_all
    · simp_all

/-- Claim C6 counterexample: a retained comment whose raw author is absent
(so the normalized author is "[deleted]") but whose raw body is "hello"
keeps body "hello", contradicting the claim that the body is "[deleted]"
exactly when the author is absent. -/
theorem C6_counterexample :
    (normalizeComment { baseComment with author := "" } "abc123").author
        = "[deleted]"
    ∧ (normalizeComment { baseComment with author := "" } "abc123").body
        = "hello" := by
  constructor
  · rfl
  · rfl

/-- Claim C9 (confirmed): normalizeThread is deterministic up to the fetch
timestamp: for identical raw input and options and any two clock readings,
the results agree on every field except meta.fetchedAt. -/
theorem C9_determinism (pl cl : RawResponse) (opts : NormalizeOptions)
    (t1 t2 : String) :
    eraseFetchedAt (normalizeThread pl cl opts t1)
      = eraseFetchedAt (normalizeThread pl cl opts t2) := by
  cases pl with
  | none => rfl
  | some pcs => cases pcs <;> rfl

/-- Claim C3 (confirmed): a comment passing the depth cutoff whose author
is "[deleted]" is retained (it heads the flattened output) even with its
score below minScore, while the otherwise-identical comment with a
non-deleted author and the same low score is dropped together with its
whole subtree, leaving the output as if the node were not there. -/
theorem C3_deleted_immunity (c : RawCommentData) (replies rest : RawChildren)
    (tid : String) (df : DepthLevel) (ms : Int) (a : String)
    (hdepth : depthExceeds c.depth (depthCutoff df) = false)
    (hdel : c.author = "[deleted]") (ha : a ≠ "[deleted]")
    (hscore : c.score < ms) :
    (flattenChildren tid (depthCutoff df) ms (.commentR c replies rest)).1.head?
        = some (normalizeComment c tid)
    ∧ flattenChildren tid (depthCutoff df) ms
        (.commentR { c with author := a } replies rest)
      = flattenChildren tid (depthCutoff df) ms rest := by
  constructor
  · simp [flattenChildren, hdepth, hdel]
  · simp [flattenChildren, hdepth, ha, hscore]

/-- Claim C3 witness at a concrete input: a depth-0 comment with author
"[deleted]" and score -7 against minScore 0. -/
theorem C3_witness :
    (flattenChildren "abc123" (depthCutoff .full) 0
        (.commentR { baseComment with author := "[deleted]", score := -7 }
          .nil .nil)).1.head?
      = some (normalizeComment
          { baseComment with author := "[deleted]", score := -7 } "abc123")
    ∧ flattenChildren "abc123" (depthCutoff .full) 0
        (.commentR { { baseComment with author := "[deleted]", score := -7 }
            with author := "alice" } .nil .nil)
      = flattenChildren "abc123" (depthCutoff .full) 0 .nil :=
  C3_deleted_immunity
    { baseComment with author := "[deleted]", score := -7 } .nil .nil
    "abc123" .full 0 "alice" rfl rfl (by decide) (by decide)

/-- Claim C1 (corrected): a comment beyond the depth cutoff contributes
nothing to the output, and the elided-count accumulator grows by the size
of its loaded replies subtree only — its descendants, not the skipped
comment itself — and by nothing at all when the replies field holds no
listing. -/
theorem C1_amended (tid : String) (cutoff : Option Nat) (ms : Int)
    (c : RawCommentData) (replies rest : RawChildren)
    (h : depthExceeds c.depth cutoff = true) :
    flattenChildren tid cutoff ms (.commentR c replies rest)
      = ((flattenChildren tid cutoff ms rest).1,
          countNestedComments replies
            + (flattenChildren tid cutoff ms rest).2)
    ∧ flattenChildren tid cutoff ms (.commentNR c rest)
      = flattenChildren tid cutoff ms rest := by
  constructor
  · simp [flattenChildren, h]
  · simp [flattenChildren, h]

/-- Claim C1 witness at a concrete input: a depth-3 comment against the
top cutoff, with one loaded reply and a More node of count 2 below it. -/
theorem C1_witness :
    depthExceeds 3 (depthCutoff .top) = true
    ∧ flattenChildren "abc123" (depthCutoff .top) 0
        (.commentR { baseComment with depth := 3 }
          (.commentNR { baseComment with id := "r", depth := 4 }
            (.more { count := 2, children := [] } .nil))
          .nil)
      = ((flattenChildren "abc123" (depthCutoff .top) 0 .nil).1,
          countNestedComments
              (.commentNR { baseComment with id := "r", depth := 4 }
                (.more { count := 2, children := [] } .nil))
            + (flattenChildren "abc123" (depthCutoff .top) 0 .nil).2) :=
  ⟨by decide,
    (C1_amended "abc123" (depthCutoff .top) 0 { baseComment with depth := 3 }
      (.commentNR { baseComment with id := "r", depth := 4 }
        (.more { count := 2, children := [] } .nil))
      .nil (by decide)).1⟩

/-- Claim C1 counterexample: the end-to-end example given in the spec (post
abc123; depth-0 comment c1 whose replies hold the depth-1 comment c2 and a
More node with count 5), normalized with depth top and minScore 0,
returns comments [c1] but moreCommentsAvailable = 5, not the claimed 6:
the depth-elided comment c2 itself is never counted. -/
theorem C1_counterexample :
    (normalizeThread (some (.post exPost .nil)) (some exListing)
        { depth := .top, minScore := some 0 } "NOW").map
      (fun d => (d.comments.map (fun c => c.id),
        d.meta.moreCommentsAvailable))
      = .ok (["c1"], 5) := by
  rfl

-- ============================================
-- Helper lemmas (shared)
-- ============================================

/-- A comment that survives the default score filter condition
(author not the deleted literal and score below 0) normalizes to a comment with the
deleted author or a non-negative score. -/
theorem normalizeComment_scoreOK (c : RawCommentData) (tid : String)
    (h : ¬(c.author ≠ "[deleted]" ∧ c.score < 0)) :
    (normalizeComment c tid).author = "[deleted]"
      ∨ 0 ≤ (normalizeComment c tid).score := by
  push_neg at h
  by_cases hA : c.author = "[deleted]"
  · left
    simp [normalizeComment, hA]
  · right
    simpa [normalizeComment] using h hA

/-- Every comment flattenComments retains at the default minScore of 0 has
the deleted author or a non-negative score. -/
theorem flatten_minScore_default (tid : String) (cutoff : Option Nat) :
    ∀ (cs : RawChildren) (nc : NormalizedComment),
      nc ∈ (flattenChildren tid cutoff 0 cs).1 →
      nc.author = "[deleted]" ∨ 0 ≤ nc.score := by
  intro cs
  induction cs with
  | nil => intro nc h; simp [flattenChildren] at h
  | post p rest ih =>
      intro nc h
      exact ih nc (by simpa [flattenChildren] using h)
  | more m rest ih =>
      intro nc h
      exact ih nc (by simpa [flattenChildren] using h)
  | commentNR c rest ih =>
      intro nc h
      simp only [flattenChildren] at h
      split at h
      · exact ih nc h
      · split at h
        · exact ih nc h
        · rename_i hcond
          rcases List.mem_cons.mp h with h1 | h1
          · subst h1
            exact normalizeComment_scoreOK c tid hcond
          · exact ih nc h1
  | commentRA c rest ih =>
      intro nc h
      simp only [flattenChildren] at h
      split at h
      · exact ih nc h
      · split at h
        · exact ih nc h
        · rename_i hcond
          rcases List.mem_cons.mp h with h1 | h1
          · subst h1
            exact normalizeComment_scoreOK c tid hcond
          · exact ih nc h1
  | commentR c replies rest ihrep ihrest =>
      intro nc h
      simp only [flattenChildren] at h
      split at h
      · exact ihrest nc h
      · split at h
        · exact ihrest nc h
        · rename_i hcond
          rcases List.mem_cons.mp h with h1 | h1
          · subst h1
            exact normalizeComment_scoreOK c tid hcond
          · rcases List.mem_append.mp h1 with h2 | h2
            · exact ihrep nc h2
            · exact ihrest nc h2

/-- scoreOK rules out the default score-filter drop condition. -/
theorem scoreOK_not_dropped (c : RawCommentData) (h : scoreOK c = true) :
    ¬(c.author ≠ "[deleted]" ∧ c.score < 0) := by
  simp only [scoreOK, Bool.or_eq_true, decide_eq_true_eq, beq_iff_eq] at h
  rcases h with h | h
  · rintro ⟨_, hlt⟩
    omega
  · rintro ⟨hne, _⟩
    exact hne h

/-- moreOK forces the flattenComments contribution of a More node to be
its declared count. -/
theorem moreOK_contribution (m : RawMore) (h : moreOK m = true) :
    moreContribution m = m.count := by
  simp only [moreOK, Bool.or_eq_true, bne_iff_ne, ne_eq,
    List.isEmpty_iff] at h
  rcases h with h | h
  · simp [moreContribution, h]
  · simp only [moreContribution, h, List.length_nil]
    split
    · rfl
    · omega

/-- Count conservation at the flatten level: at unbounded depth and the
default minScore of 0 over a good tree, retained comments plus the elided
count add up to totalReachable. -/
theorem flatten_conservation (tid : String) :
    ∀ cs : RawChildren, goodChildren cs = true →
      (flattenChildren tid none 0 cs).1.length
        + (flattenChildren tid none 0 cs).2 = totalReachable cs := by
  intro cs
  induction cs with
  | nil => intro _; rfl
  | post p rest ih =>
      intro hg
      simpa [flattenChildren, totalReachable] using
        ih (by simpa [goodChildren] using hg)
  | more m rest ih =>
      intro hg
      simp only [goodChildren, Bool.and_eq_true] at hg
      have h1 := ih hg.2
      have hm := moreOK_contribution m hg.1
      simp only [flattenChildren, totalReachable, hm]
      omega
  | commentNR c rest ih =>
      intro hg
      simp only [goodChildren, Bool.and_eq_true] at hg
      have h1 := ih hg.2
      have hns := scoreOK_not_dropped c hg.1
      simp only [flattenChildren, depthExceeds, totalReachable]
      rw [if_neg (by simp), if_neg hns]
      simp only [List.length_cons]
      omega
  | commentRA c rest ih =>
      intro hg
      simp only [goodChildren, Bool.and_eq_true] at hg
      have h1 := ih hg.2
      have hns := scoreOK_not_dropped c hg.1
      simp only [flattenChildren, depthExceeds, totalReachable]
      rw [if_neg (by simp), if_neg hns]
      simp only [List.length_cons]
      omega
  | commentR c replies rest ihrep ihrest =>
      intro hg
      simp only [goodChildren, Bool.and_eq_true] at hg
      have h1 := ihrep hg.1.2
      have h2 := ihrest hg.2
      have hns := scoreOK_not_dropped c hg.1.1
      simp only [flattenChildren, depthExceeds, totalReachable]
      rw [if_neg (by simp), if_neg hns]
      simp only [List.length_cons, List.length_append]
      omega

-- ============================================
-- Claims C10, C2, C4, C5
-- ============================================

/-- Claim C10 (confirmed): with options.minScore omitted the default
minimum score 0 applies: every comment normalizeThread retains has the
deleted author or a non-negative score, so a comment with a real author
and negative score is always dropped. -/
theorem C10_default_minScore (pl cl : RawResponse) (depth : DepthLevel)
    (maxC : Option Nat) (t : String) (d : NormalizedData)
    (h : normalizeThread pl cl
        { depth := depth, maxComments := maxC, minScore := none } t
      = .ok d) :
    ∀ nc ∈ d.comments, nc.author = "[deleted]" ∨ 0 ≤ nc.score := by
  intro nc hnc
  cases pl with
  | none => simp [normalizeThread] at h
  | some pcs =>
    cases pcs with
    | nil => simp [normalizeThread] at h
    | more m rest => simp [normalizeThread] at h
    | commentNR c rest => simp [normalizeThread] at h
    | commentRA c rest => simp [normalizeThread] at h
    | commentR c replies rest => simp [normalizeThread] at h
    | post p prest =>
      simp only [normalizeThread] at h
      injection h with h'
      subst h'
      simp only at hnc
      cases cl with
      | none => simp [flattenComments] at hnc
      | some ccs =>
        have hnc' : nc ∈ (flattenChildren p.id (depthCutoff depth) 0 ccs).1 := by
          revert hnc
          split
          · intro hnc
            exact List.take_subset _ _ hnc
          · intro hnc
            exact hnc
        exact flatten_minScore_default p.id (depthCutoff depth) ccs nc hnc'

/-- Claim C10 witness at a concrete input: a thread whose one comment has
an absent author and score 5, normalized with minScore omitted. -/
theorem C10_witness :
    (normalizeComment c10Comment "abc123").author = "[deleted]"
      ∨ 0 ≤ (normalizeComment c10Comment "abc123").score :=
  C10_default_minScore (some (.post exPost .nil))
    (some (.commentNR c10Comment .nil)) .full none "NOW" exData10 rfl
    (normalizeComment c10Comment "abc123") (by simp [exData10])

/-- Claim C2 (corrected): count conservation at full depth with no cap
and minScore omitted holds provided every reachable comment has a
non-negative score or the deleted author (the omitted minScore still
defaults to 0 and silently drops negative-score comments without counting
them) and every reachable More node has a nonzero declared count or no
elided ids (a zero/absent count falls back to the children-array length
rather than the declared count). -/
theorem C2_amended (p : RawPost) (prest : RawChildren) (cl : RawResponse)
    (t : String) (hg : goodListing cl = true) :
    (normalizeThread (some (.post p prest)) cl { depth := .full } t).map
      (fun d => d.comments.length + d.meta.moreCommentsAvailable)
      = .ok (totalListing cl) := by
  cases cl with
  | none => rfl
  | some ccs =>
    have hg' : goodChildren ccs = true := by simpa [goodListing] using hg
    have h := flatten_conservation (normalizePost p).id ccs hg'
    simp only [normalizeThread, flattenComments, depthCutoff, Option.getD,
      Except.map, totalListing]
    simp only [Bool.false_eq_true, if_false, Nat.add_zero]
    exact congrArg Except.ok (by omega)

/-- Claim C2 witness at a concrete input: the end-to-end example tree of
the spec (all scores non-negative, More count 5) at full depth, no cap,
no score filter. -/
theorem C2_witness :
    goodListing (some exListing) = true
    ∧ (normalizeThread (some (.post exPost .nil)) (some exListing)
        { depth := .full } "NOW").map
        (fun d => d.comments.length + d.meta.moreCommentsAvailable)
      = .ok (totalListing (some exListing)) :=
  ⟨by decide, C2_amended exPost .nil (some exListing) "NOW" (by decide)⟩

/-- Claim C2 counterexample: a raw tree holding a single comment with a
real author and score -1, normalized at full depth with no score filter
and no cap, retains 0 comments and counts 0 as elided, while the tree has
1 reachable comment node: conservation fails as stated. -/
theorem C2_counterexample :
    (normalizeThread (some (.post exPost .nil)) (some negListing)
        { depth := .full } "NOW").map
      (fun d => (d.comments.length, d.meta.moreCommentsAvailable))
      = .ok (0, 0)
    ∧ totalReachable negListing = 1 :=
  ⟨rfl, rfl⟩

/-- Claim C4 (corrected): the truncation contract holds for every cap
N ≥ 1 (a cap of 0 is falsy in the maxComments test of the source
and disables truncation): if the uncapped run retains M > N comments, the
capped run returns exactly the first N of them, sets meta.truncated, and
raises moreCommentsAvailable by exactly M - N. -/
theorem C4_amended (pl cl : RawResponse) (depth : DepthLevel)
    (ms : Option Int) (t t' : String) (N : Nat) (d0 : NormalizedData)
    (hN : N ≠ 0)
    (h0 : normalizeThread pl cl
        { depth := depth, maxComments := none, minScore := ms } t = .ok d0)
    (hM : N < d0.comments.length) :
    (normalizeThread pl cl
        { depth := depth, maxComments := some N, minScore := ms } t').map
        (fun d => (d.comments, d.meta.truncated,
          d.meta.moreCommentsAvailable))
      = .ok (d0.comments.take N, true,
          d0.meta.moreCommentsAvailable + (d0.comments.length - N))
    ∧ (d0.comments.take N).length = N := by
  cases pl with
  | none => simp [normalizeThread] at h0
  | some pcs =>
    cases pcs with
    | nil => simp [normalizeThread] at h0
    | more m rest => simp [normalizeThread] at h0
    | commentNR c rest => simp [normalizeThread] at h0
    | commentRA c rest => simp [normalizeThread] at h0
    | commentR c replies rest => simp [normalizeThread] at h0
    | post p prest =>
      simp only [normalizeThread] at h0
      injection h0 with h0'
      subst h0'
      have hM' : N < (flattenComments cl (normalizePost p).id depth
          (ms.getD 0)).1.length := by
        simpa using hM
      have hc : ((N != 0) && decide
          ((flattenComments cl (normalizePost p).id depth
            (ms.getD 0)).1.length > N)) = true := by
        simp only [Bool.and_eq_true, bne_iff_ne, ne_eq,
          decide_eq_true_eq]
        exact ⟨hN, hM'⟩
      constructor
      · simp only [normalizeThread, Except.map]
        simp [hc, List.length_take]
        all_goals omega
      · simp [List.length_take]
        all_goals omega

/-- Claim C4 witness at a concrete input: the three-comment exListing8
thread, cap 1 against an uncapped run retaining 3. -/
theorem C4_witness :
    (normalizeThread (some (.post exPost .nil)) (some exListing8)
        { depth := .full, maxComments := some 1 } "LATER").map
        (fun d => (d.comments, d.meta.truncated,
          d.meta.moreCommentsAvailable))
      = .ok (exData8.comments.take 1, true,
          exData8.meta.moreCommentsAvailable + (exData8.comments.length - 1))
    ∧ (exData8.comments.take 1).length = 1 :=
  C4_amended (some (.post exPost .nil)) (some exListing8) .full none
    "NOW" "LATER" 1 exData8 (by decide) rfl (by decide)

/-- Claim C4 counterexample: with maxComments = 0 and an uncapped output
of 3 comments (M = 3 > N = 0), the falsy test in the source skips
truncation: the result keeps all 3 comments and truncated stays false,
contrary to the claimed exactly-N comments and meta.truncated = true. -/
theorem C4_counterexample :
    (normalizeThread (some (.post exPost .nil)) (some exListing8)
        { depth := .full, maxComments := some 0 } "NOW").map
      (fun d => (d.comments.length, d.meta.truncated))
      = .ok (3, false) :=
  rfl

/-- Claim C5 (corrected): normalizeThread is total with two outcomes, but
not every malformed post listing yields the ParseError: a post listing
whose children array is present with the first child missing or not of
kind t3 raises the could-not-find-post-content ParseError, while a
post listing whose children array is absent crashes with a TypeError
instead; a comment listing with an absent children array is treated as
zero comments and zero elided, not as an error. -/
theorem C5_amended (pl cl : RawResponse) (opts : NormalizeOptions)
    (t : String) :
    (pl = none → normalizeThread pl cl opts t = .error .typeError)
    ∧ (∀ pcs : RawChildren, pl = some pcs → isPostHead pcs = false →
        normalizeThread pl cl opts t
          = .error (.parseError
              "Invalid thread data: could not find post content."))
    ∧ (∀ (p : RawPost) (prest : RawChildren),
        pl = some (.post p prest) → cl = none →
        (normalizeThread pl cl opts t).map
            (fun d => (d.comments, d.meta.moreCommentsAvailable))
          = .ok ([], 0)) := by
  refine ⟨?_, ?_, ?_⟩
  · rintro rfl
    rfl
  · rintro pcs rfl hh
    cases pcs <;> simp_all [normalizeThread, isPostHead]
  · rintro p prest rfl rfl
    rcases opts with ⟨dep, mc, msc⟩
    cases mc with
    | none => rfl
    | some n => simp [normalizeThread, flattenComments, Except.map]

/-- Claim C5 witness at concrete inputs: an empty post children array
raises the ParseError, and an absent comment children array yields zero
comments and zero elided. -/
theorem C5_witness :
    normalizeThread (some .nil) (some exListing) { depth := .full } "NOW"
      = .error (.parseError
          "Invalid thread data: could not find post content.")
    ∧ (normalizeThread (some (.post exPost .nil)) none { depth := .top }
        "NOW").map (fun d => (d.comments, d.meta.moreCommentsAvailable))
      = .ok ([], 0) :=
  ⟨(C5_amended (some .nil) (some exListing) { depth := .full } "NOW").2.1
      .nil rfl rfl,
    (C5_amended (some (.post exPost .nil)) none { depth := .top }
      "NOW").2.2 exPost .nil rfl rfl⟩

/-- Claim C5 counterexample: a post listing whose children array is
absent makes normalizeThread fail with the TypeError of the unguarded
`postListing.data.children[0]` access, which is not a ParseError — the
claimed either-complete-NormalizedData-or-ParseError fails there. -/
theorem C5_counterexample :
    normalizeThread none (some exListing) { depth := .full } "NOW"
      = .error .typeError
    ∧ NormalizeError.typeError
      ≠ NormalizeError.parseError
          "Invalid thread data: could not find post content." :=
  ⟨rfl, by decide⟩

-- ============================================
-- Claims C7 and C8
-- ============================================

/-- Claim C7 (corrected): toCSV emits the header and one row per retained
comment in the fixed column order with body newlines collapsed, but only
the body field is CSV-escaped; the other fields are emitted verbatim, so
the every-field quoting of the claim holds exactly on data whose remaining
fields need no quoting. -/
theorem C7_amended (data : NormalizedData)
    (h : ∀ c ∈ data.comments,
      escapeCSV c.id = c.id ∧ escapeCSV c.author = c.author
      ∧ escapeCSV c.parentId = c.parentId
      ∧ escapeCSV c.createdAt = c.createdAt
      ∧ escapeCSV c.permalink = c.permalink
      ∧ escapeCSV (toString c.score) = toString c.score
      ∧ escapeCSV (toString c.depth) = toString c.depth
      ∧ escapeCSV (toString c.awards) = toString c.awards) :
    toCSV data = toCSVQuoted data := by
  unfold toCSV toCSVQuoted
  refine congrArg _ (congrArg _ ?_)
  refine List.map_congr_left (fun c hc => ?_)
  rcases h c hc with ⟨h1, h2, h3, h4, h5, h6, h7, h8⟩
  have ht : escapeCSV "true" = "true" := by decide
  have hf : escapeCSV "false" = "false" := by decide
  unfold csvRow csvRowQuoted
  rw [h1, h2, h3, h4, h5, h6, h7, h8]
  cases c.isOP <;> simp [ht, hf]

/-- Claim C7 witness at a concrete input: a one-comment document whose
body needs quoting (comma, quote and newline) but whose other fields do
not; the source render agrees with the every-field quoting of the spec. -/
theorem C7_witness : toCSV cleanData = toCSVQuoted cleanData :=
  C7_amended cleanData (by decide)

/-- Claim C7 counterexample: a retained comment whose author contains a
comma is emitted verbatim by toCSV, differing from the spec rendering
that wraps any field containing a comma in double quotes. -/
theorem C7_counterexample : toCSV dirtyData ≠ toCSVQuoted dirtyData := by
  decide

/-- Relaxing the depth cutoff only adds retained comments: every comment
flattened under cutoff k also appears under any cutoff k' that passes at
least the depths k passes. -/
theorem flatten_mono (tid : String) (ms : Int) (k k' : Option Nat)
    (hk : ∀ d : Nat, depthExceeds d k = false → depthExceeds d k' = false) :
    ∀ cs : RawChildren,
      (flattenChildren tid k ms cs).1 ⊆ (flattenChildren tid k' ms cs).1 := by
  intro cs
  induction cs with
  | nil => simp [flattenChildren]
  | post p rest ih => simpa [flattenChildren] using ih
  | more m rest ih => simpa [flattenChildren] using ih
  | commentNR c rest ih =>
      by_cases hd : depthExceeds c.depth k = true
      · have hL : (flattenChildren tid k ms (.commentNR c rest)).1
            = (flattenChildren tid k ms rest).1 := by
          simp [flattenChildren, hd]
        rw [hL]
        refine ih.trans ?_
        by_cases hd' : depthExceeds c.depth k' = true
        · simp [flattenChildren, hd']
        · by_cases hs : (c.author ≠ "[deleted]" ∧ c.score < ms)
          · simp [flattenChildren, hd', hs]
          · simp only [flattenChildren, hd', if_false, hs]
            simp only [Bool.false_eq_true, if_false]
            exact List.subset_cons_self _ _
      · have hd2 : depthExceeds c.depth k = false :=
          Bool.not_eq_true _ ▸ eq_false_of_ne_true hd
        have hd' := hk _ hd2
        by_cases hs : (c.author ≠ "[deleted]" ∧ c.score < ms)
        · simp only [flattenChildren, hd2, hd', Bool.false_eq_true,
            if_false]
          rw [if_pos hs, if_pos hs]
          exact ih
        · simp only [flattenChildren, hd2, hd', Bool.false_eq_true,
            if_false]
          rw [if_neg hs, if_neg hs]
          exact List.cons_subset_cons _ ih
  | commentRA c rest ih =>
      by_cases hd : depthExceeds c.depth k = true
      · have hL : (flattenChildren tid k ms (.commentRA c rest)).1
            = (flattenChildren tid k ms rest).1 := by
          simp [flattenChildren, hd]
        rw [hL]
        refine ih.trans ?_
        by_cases hd' : depthExceeds c.depth k' = true
        · simp [flattenChildren, hd']
        · by_cases hs : (c.author ≠ "[deleted]" ∧ c.score < ms)
          · simp [flattenChildren, hd', hs]
          · simp only [flattenChildren, hd', Bool.false_eq_true, if_false]
            rw [if_neg hs]
            exact List.subset_cons_self _ _
      · have hd2 : depthExceeds c.depth k = false :=
          Bool.not_eq_true _ ▸ eq_false_of_ne_true hd
        have hd' := hk _ hd2
        by_cases hs : (c.author ≠ "[deleted]" ∧ c.score < ms)
        · simp only [flattenChildren, hd2, hd', Bool.false_eq_true,
            if_false]
          rw [if_pos hs, if_pos hs]
          exact ih
        · simp only [flattenChildren, hd2, hd', Bool.false_eq_true,
            if_false]
          rw [if_neg hs, if_neg hs]
          exact List.cons_subset_cons _ ih
  | commentR c replies rest ihrep ihrest =>
      by_cases hd : depthExceeds c.depth k = true
      · have hL : (flattenChildren tid k ms (.commentR c replies rest)).1
            = (flattenChildren tid k ms rest).1 := by
          simp [flattenChildren, hd]
        rw [hL]
        refine ihrest.trans ?_
        by_cases hd' : depthExceeds c.depth k' = true
        · simp [flattenChildren, hd']
        · by_cases hs : (c.author ≠ "[deleted]" ∧ c.score < ms)
          · simp [flattenChildren, hd', hs]
          · simp only [flattenChildren, hd', Bool.false_eq_true, if_false]
            rw [if_neg hs]
            exact (List.subset_append_right _ _).trans
              (List.subset_cons_self _ _)
      · have hd2 : depthExceeds c.depth k = false :=
          Bool.not_eq_true _ ▸ eq_false_of_ne_true hd
        have hd' := hk _ hd2
        by_cases hs : (c.author ≠ "[deleted]" ∧ c.score < ms)
        · simp only [flattenChildren, hd2, hd', Bool.false_eq_true,
            if_false]
          rw [if_pos hs, if_pos hs]
          exact ihrest
        · simp only [flattenChildren, hd2, hd', Bool.false_eq_true,
            if_false]
          rw [if_neg hs, if_neg hs]
          refine List.cons_subset_cons _ ?_
          exact List.append_subset.mpr
            ⟨ihrep.trans (List.subset_append_left _ _),
              ihrest.trans (List.subset_append_right _ _)⟩

/-- Claim C8 (corrected): with no maxComments cap (the cap can cut
different traversal prefixes under different depth filters and break the
inclusion), the retained comment ids under depth top are a subset of
those under level2, which are a subset of those under full. -/
theorem C8_amended (pl cl : RawResponse) (ms : Option Int)
    (t1 t2 t3 : String) :
    idsOf (normalizeThread pl cl { depth := .top, minScore := ms } t1)
      ⊆ idsOf (normalizeThread pl cl { depth := .level2, minScore := ms } t2)
    ∧ idsOf (normalizeThread pl cl { depth := .level2, minScore := ms } t2)
      ⊆ idsOf (normalizeThread pl cl { depth := .full, minScore := ms } t3) := by
  cases pl with
  | none => exact ⟨List.Subset.refl _, List.Subset.refl _⟩
  | some pcs =>
    cases pcs with
    | nil => exact ⟨List.Subset.refl _, List.Subset.refl _⟩
    | more m rest => exact ⟨List.Subset.refl _, List.Subset.refl _⟩
    | commentNR c rest => exact ⟨List.Subset.refl _, List.Subset.refl _⟩
    | commentRA c rest => exact ⟨List.Subset.refl _, List.Subset.refl _⟩
    | commentR c replies rest => exact ⟨List.Subset.refl _, List.Subset.refl _⟩
    | post p prest =>
      cases cl with
      | none =>
          constructor <;>
            simp [normalizeThread, idsOf, flattenComments]
      | some ccs =>
          have h1 := flatten_mono (normalizePost p).id (ms.getD 0)
            (some 0) (some 1)
            (fun d h => by
              simp only [depthExceeds, decide_eq_false_iff_not] at h ⊢
              omega) ccs
          have h2 := flatten_mono (normalizePost p).id (ms.getD 0)
            (some 1) none (fun d h => rfl) ccs
          constructor
          · simp only [normalizeThread, idsOf, flattenComments,
              depthCutoff, Except.map, Bool.false_eq_true, if_false]
            exact List.map_subset _ h1
          · simp only [normalizeThread, idsOf, flattenComments,
              depthCutoff, Except.map, Bool.false_eq_true, if_false]
            exact List.map_subset _ h2

/-- Claim C8 counterexample: with the otherwise-identical options
maxComments = 2 on a thread with top-level comments a, b where a has the
reply r, depth top retains ids [a, b] while level2 and full retain
[a, r]: b is retained under top but not under the deeper filters, so
the subset chain fails as stated. -/
theorem C8_counterexample :
    (normalizeThread (some (.post exPost .nil)) (some exListing8)
        { depth := .top, maxComments := some 2 } "NOW").map
      (fun d => d.comments.map (fun c => c.id)) = .ok ["a", "b"]
    ∧ (normalizeThread (some (.post exPost .nil)) (some exListing8)
        { depth := .level2, maxComments := some 2 } "NOW").map
      (fun d => d.comments.map (fun c => c.id)) = .ok ["a", "r"]
    ∧ (normalizeThread (some (.post exPost .nil)) (some exListing8)
        { depth := .full, maxComments := some 2 } "NOW").map
      (fun d => d.comments.map (fun c => c.id)) = .ok ["a", "r"]
    ∧ "b" ∉ (["a", "r"] : List String) :=
  ⟨rfl, rfl, rfl, by decide⟩

end ThreadMiner
